import Mathlib

/-!
Verification of the DJI footage pipeline (merge split segments, then
stabilize): a shallow embedding of the sequence assembler, the recording
namer, the merge stage and the stabilize stage, with theorems settling the
spec's claims about them.

Sources embedded: `src/process_footage.py` (the consolidated pipeline),
`src/merge_files.py` and `src/proccess.py` (earlier drafts of the merge
stage), `src/stabilye.py` (the stabilize stage draft).  File sizes are
natural numbers of bytes; file contents are modelled as lists of bytes so
that byte-identity of a relocated file is expressible.  External-tool
discovery (`shutil.which` etc.) is out of scope per the spec; the engines
are modelled as environment parameters describing their observable effect.
-/

namespace DjiTools

/-- Source constants of `get_footage_sequences` (process_footage.py line 85):
`split_limit = 3760000000`. -/
def split_limit : Nat := 3760000000

/-- Source constant (process_footage.py line 86): `max_limit = 4000000000`. -/
def max_limit : Nat := 4000000000

/-- Folder configuration (process_footage.py line 25). -/
def source_folder : String := "/srv/storage/_"

/-- Folder configuration (process_footage.py line 26). -/
def merged_folder : String := "/srv/storage/_/merged_footage"

/-- `os.path.join` for a relative second component. -/
def pathJoin (a b : String) : String := a ++ "/" ++ b

/-- A candidate segment file: its name and its size in bytes
(`os.path.getsize` is external metadata retrieval; we carry the size with
the name). -/
structure SegFile where
  name : String
  size : Nat
deriving DecidableEq, Repr

/-- The segment classifier's verdict (spec 4.1). -/
inductive Verdict where
  | ignore
  | continuation
  | terminal
deriving DecidableEq, Repr

/-- The branch structure of the loop body of `get_footage_sequences`
(process_footage.py lines 92-100): `size > max_limit` is skipped,
`size > split_limit` is a split part, anything else ends a sequence.
The bounds are parameters (the spec calls them configuration inputs). -/
def classify (size lower upper : Nat) : Verdict :=
  if size > upper then .ignore
  else if size > lower then .continuation
  else .terminal

/-- The assembler loop of `get_footage_sequences` (process_footage.py lines
90-102), with the in-progress buffer `parts` explicit: `ignore` drops the
file, `continuation` appends to the buffer, `terminal` appends and emits the
buffer.  The trailing buffer is dropped when the input ends (the Python
function returns `footage_files` without flushing `parts`). -/
def assembleAux (lower upper : Nat) : List SegFile → List SegFile → List (List SegFile)
  | [], _parts => []
  | f :: rest, parts =>
    match classify f.size lower upper with
    | .ignore => assembleAux lower upper rest parts
    | .continuation => assembleAux lower upper rest (parts ++ [f])
    | .terminal => (parts ++ [f]) :: assembleAux lower upper rest []

/-- The final value of the `parts` buffer after the loop of
`get_footage_sequences`: the trailing sequence that never reached a terminal
segment, which the source discards. -/
def leftoverAux (lower upper : Nat) : List SegFile → List SegFile → List SegFile
  | [], parts => parts
  | f :: rest, parts =>
    match classify f.size lower upper with
    | .ignore => leftoverAux lower upper rest parts
    | .continuation => leftoverAux lower upper rest (parts ++ [f])
    | .terminal => leftoverAux lower upper rest []

/-- The sequence assembler with explicit bounds, started on an empty buffer. -/
def assemble (lower upper : Nat) (files : List SegFile) : List (List SegFile) :=
  assembleAux lower upper files []

/-- The discarded trailing buffer of a run of the assembler. -/
def leftoverBuffer (lower upper : Nat) (files : List SegFile) : List SegFile :=
  leftoverAux lower upper files []

/-- `get_footage_sequences` as in the source, with its hard-coded limits. -/
def get_footage_sequences (files : List SegFile) : List (List SegFile) :=
  assemble split_limit max_limit files

/-- Python's `str.split` on a one-character separator, over the character
list of the string: `"" .split('_') = [""]`, `"a_b".split('_') = ["a","b"]`. -/
def splitOnChar (c : Char) : List Char → List (List Char)
  | [] => [[]]
  | a :: rest =>
    let r := splitOnChar c rest
    if a = c then [] :: r
    else
      match r with
      | [] => [[a]]
      | g :: gs => (a :: g) :: gs

/-- `format_dji_filename` (process_footage.py lines 34-45).  Python's
`name.split('_')[1]` raises `IndexError` when the name has no underscore
(modelled as `none`); otherwise the five slices of the timestamp field are
taken, Python slicing silently clamping past the end of a short field. -/
def format_dji_filename (dji_filename : String) : Option String :=
  match (splitOnChar '_' dji_filename.data).get? 1 with
  | none => none
  | some ts =>
      some (String.mk (ts.take 4) ++ "." ++ String.mk ((ts.drop 4).take 2) ++ "."
        ++ String.mk ((ts.drop 6).take 2) ++ " " ++ String.mk ((ts.drop 8).take 2)
        ++ "." ++ String.mk ((ts.drop 10).take 2))

/-- `format_dji_filename` as proccess.py defines it (lines 9-24): the same
split and slices, but the identity joins date and time with an underscore,
`YYYY.MM.DD_HH.MM` (line 24: `f"{year}.{month}.{day}_{hour}.{minute}"`),
unlike the space format of process_footage.py and merge_files.py. -/
def proccess_format_dji_filename (dji_filename : String) : Option String :=
  match (splitOnChar '_' dji_filename.data).get? 1 with
  | none => none
  | some ts =>
      some (String.mk (ts.take 4) ++ "." ++ String.mk ((ts.drop 4).take 2) ++ "."
        ++ String.mk ((ts.drop 6).take 2) ++ "_" ++ String.mk ((ts.drop 8).take 2)
        ++ "." ++ String.mk ((ts.drop 10).take 2))

/-- Lexicographic strict order on character lists (the order `files.sort()`
uses on names), as an executable Boolean. -/
def lexLt : List Char → List Char → Bool
  | [], [] => false
  | [], _ :: _ => true
  | _ :: _, [] => false
  | a :: as, b :: bs => if a < b then true else if a = b then lexLt as bs else false

/-- Strict name order on segment files. -/
def nameLt (a b : SegFile) : Prop := lexLt a.name.data b.name.data = true

instance (a b : SegFile) : Decidable (nameLt a b) := by
  unfold nameLt
  infer_instance

/-! ## Filesystem model

The pipeline's only shared state is the filesystem.  A file is a path with
its byte content (so byte-identity of a relocated file is expressible);
directories are tracked so that creating one is an observable mutation. -/

/-- A filesystem snapshot: files as an association list from path to byte
content, plus the set of directories. -/
structure FS where
  files : List (String × List Nat)
  dirs : List String
deriving DecidableEq, Repr

/-- `os.path.exists` on a file path. -/
def FS.existsFile (fs : FS) (p : String) : Bool :=
  (fs.files.lookup p).isSome

/-- Content of a file, when present. -/
def FS.readFile (fs : FS) (p : String) : Option (List Nat) :=
  fs.files.lookup p

/-- `stat().st_size`: byte size of a file (0 when absent; the sources only
consult it on files known to exist). -/
def FS.sizeOf (fs : FS) (p : String) : Nat :=
  ((fs.files.lookup p).getD []).length

/-- `Path.unlink(missing_ok=True)`: drop the entry if present. -/
def FS.unlink (fs : FS) (p : String) : FS :=
  ⟨fs.files.filter (fun e => !(e.1 == p)), fs.dirs⟩

/-- Create or overwrite a file. -/
def FS.writeFile (fs : FS) (p : String) (bytes : List Nat) : FS :=
  ⟨(p, bytes) :: (fs.unlink p).files, fs.dirs⟩

/-- `mkdir(parents=True, exist_ok=True)` restricted to the target itself. -/
def FS.mkdir (fs : FS) (d : String) : FS :=
  if d ∈ fs.dirs then fs else ⟨fs.files, d :: fs.dirs⟩

/-- `os.rename`: move the content of `src` to `dst`.  A missing source is an
OS-level error outside the modelled behaviour (the sources only rename files
they just listed). -/
def FS.rename (fs : FS) (src dst : String) : FS :=
  match fs.files.lookup src with
  | some bytes => (fs.unlink src).writeFile dst bytes
  | none => fs

/-- `shutil.copy2`: copy the content of `src` to `dst`, keeping `src`. -/
def FS.copy (fs : FS) (src dst : String) : FS :=
  match fs.files.lookup src with
  | some bytes => fs.writeFile dst bytes
  | none => fs

/-! ## Merge stage -/

/-- Per-sequence outcome of a merge-stage iteration. -/
inductive MergeOutcome where
  | skipped
  | moved
  | copied
  | merged
  | mergeFailed
deriving DecidableEq, Repr

/-- Observable external effects of the merge stage. -/
inductive MergeEffect where
  | engineInvoke (inputs : List String) (out : String)
  | renameFile (src dst : String)
  | copyFile (src dst : String)
deriving DecidableEq, Repr

/-- The merge engine as the environment sees it: whether `mp4-merge` exits
zero on a given invocation (`merge_mp4` catches `CalledProcessError` and
returns `False`; the binary is assumed found, tool discovery being a
run-level concern out of scope here). -/
structure MergeEnv where
  engineOk : List String → String → Bool

/-- One iteration of the loop of `merge_sequences` (process_footage.py lines
115-138; merge_files.py lines 70-91 is the same logic): compute the output
name from the first segment (`seq[0]` and `split('_')[1]` raise uncaught on
an empty sequence or an underscore-free name, modelled as `.error`), skip if
the output exists, rename a single file, otherwise invoke the engine. -/
def mergeStep (env : MergeEnv) (srcDir tgtDir : String) (fs : FS) (seq : List SegFile) :
    Except String (MergeOutcome × FS × List MergeEffect) :=
  match seq with
  | [] => .error "IndexError: seq[0]"
  | f0 :: _ =>
    match format_dji_filename f0.name with
    | none => .error "IndexError: split failed"
    | some base =>
      let outputPath := pathJoin tgtDir (base ++ ".mp4")
      if fs.existsFile outputPath then
        .ok (.skipped, fs, [])
      else
        let inputFiles := seq.map (fun f => pathJoin srcDir f.name)
        if seq.length == 1 then
          let src := pathJoin srcDir f0.name
          .ok (.moved, fs.rename src outputPath, [.renameFile src outputPath])
        else
          if env.engineOk inputFiles outputPath then
            .ok (.merged, fs, [.engineInvoke inputFiles outputPath])
          else
            .ok (.mergeFailed, fs, [.engineInvoke inputFiles outputPath])

/-- `merge_sequences` (process_footage.py lines 105-138) on an assembled
sequence list: iterate `mergeStep`; an uncaught exception aborts the whole
batch (`.error`), everything else accumulates outcomes and effects. -/
def merge_sequences (env : MergeEnv) (srcDir tgtDir : String) (fs : FS) :
    List (List SegFile) → Except String (List MergeOutcome × FS × List MergeEffect)
  | [] => .ok ([], fs, [])
  | seq :: rest =>
    match mergeStep env srcDir tgtDir fs seq with
    | .error e => .error e
    | .ok (o, fs', effs) =>
      match merge_sequences env srcDir tgtDir fs' rest with
      | .error e => .error e
      | .ok (os, fs'', effs') => .ok (o :: os, fs'', effs ++ effs')

/-- The module-level merge loop of proccess.py (lines 93-113): no existence
check at all; a multi-part sequence always invokes the engine, a single file
is `shutil.copy2`-ed (not renamed) to the formatted output name.  Output
names come from proccess.py's own underscore-formatting
`proccess_format_dji_filename`. -/
def proccessMergeLoop (env : MergeEnv) (srcDir tgtDir : String) (fs : FS) :
    List (List SegFile) → Except String (List MergeOutcome × FS × List MergeEffect)
  | [] => .ok ([], fs, [])
  | seq :: rest =>
    let step : Except String (MergeOutcome × FS × List MergeEffect) :=
      match seq with
      | [] => .error "IndexError: sequence[0]"
      | [f0] =>
        match proccess_format_dji_filename f0.name with
        | none => .error "IndexError: split failed"
        | some base =>
          let src := pathJoin srcDir f0.name
          let dst := pathJoin tgtDir (base ++ ".mp4")
          .ok (.copied, fs.copy src dst, [.copyFile src dst])
      | f0 :: f1 :: more =>
        match proccess_format_dji_filename f0.name with
        | none => .error "IndexError: split failed"
        | some base =>
          let inputs := (f0 :: f1 :: more).map (fun f => pathJoin srcDir f.name)
          let out := pathJoin tgtDir (base ++ ".mp4")
          if env.engineOk inputs out then
            .ok (.merged, fs, [.engineInvoke inputs out])
          else
            .ok (.mergeFailed, fs, [.engineInvoke inputs out])
    match step with
    | .error e => .error e
    | .ok (o, fs', effs) =>
      match proccessMergeLoop env srcDir tgtDir fs' rest with
      | .error e => .error e
      | .ok (os, fs'', effs') => .ok (o :: os, fs'', effs ++ effs')

/-! ## Stabilize stage -/

/-- `StabilizationParams` (process_footage.py lines 145-148).  The percent
values are only serialized into the engine command line, so they are carried
as naturals here (120 and 80 are the defaults). -/
structure StabilizationParams where
  zoom_limit_percent : Nat := 120
  horizon_lock_percent : Nat := 80
deriving DecidableEq, Repr

/-- Uncaught exceptions of `stabilize_one` / `stabilize_file`:
`CalledProcessError` from `subprocess.run(check=True)`, and the
`RuntimeError` raised when no valid output was produced. -/
inductive StabErr where
  | engineFailed
  | incompleteOutput
deriving DecidableEq, Repr

/-- Per-file outcome of a stabilize-stage iteration that did not raise. -/
inductive StabOutcome where
  | skippedStab
  | written
deriving DecidableEq, Repr

/-- Observable effects of the stabilize stage. -/
inductive StabEffect where
  | mkdirDir (d : String)
  | unlinkPath (p : String)
  | engineInvoke (input : String) (targetDir outName : String) (params : StabilizationParams)
deriving DecidableEq, Repr

/-- The stabilization engine as the environment sees it: the files it writes
(e.g. the output, or only a zero-byte `.tmp`), and whether it exits
non-zero (raising `CalledProcessError` through `check=True`). -/
structure EngineBehavior where
  raises : Bool
  writes : List (String × List Nat)
deriving Repr

/-- Apply the engine's file writes to a filesystem snapshot. -/
def applyWrites (fs : FS) (ws : List (String × List Nat)) : FS :=
  ws.foldl (fun a e => a.writeFile e.1 e.2) fs

/-- Filesystem state after the pre-invocation steps of `stabilize_one`
(stabilye.py lines 95-99): `mkdir` the target, then on overwrite unlink the
output and its `.tmp`. -/
def stabPreState (ow : Bool) (targetDir outputPath tmpPath : String) (fs : FS) : FS :=
  let fs1 := fs.mkdir targetDir
  if ow then (fs1.unlink outputPath).unlink tmpPath else fs1

/-- Filesystem state right after the engine invocation of `stabilize_one`,
before the output validation. -/
def stabEngineState (eng : EngineBehavior) (ow : Bool)
    (targetDir outputPath tmpPath : String) (fs : FS) : FS :=
  applyWrites (stabPreState ow targetDir outputPath tmpPath fs) eng.writes

/-- `stabilize_one` (stabilye.py lines 79-126; `stabilize_file` in
process_footage.py lines 195-238 is the same logic with fixed
`parallel_renders=1`, `no_gpu_decoding`): skip while the output exists and
overwrite is off; otherwise create the target directory, on overwrite unlink
stale outputs, invoke the engine, and afterwards require a non-empty output,
removing a zero-byte `.tmp` leftover before raising `RuntimeError`. -/
def stabilize_one (eng : EngineBehavior) (params : StabilizationParams) (ow : Bool)
    (srcDir inputName targetDir : String) (fs : FS) :
    Except StabErr StabOutcome × FS × List StabEffect :=
  let outputPath := pathJoin targetDir inputName
  let tmpPath := outputPath ++ ".tmp"
  if fs.existsFile outputPath && !ow then
    (.ok .skippedStab, fs, [])
  else
    let effs := StabEffect.mkdirDir targetDir ::
      (if ow then [StabEffect.unlinkPath outputPath, StabEffect.unlinkPath tmpPath] else [])
      ++ [StabEffect.engineInvoke (pathJoin srcDir inputName) targetDir inputName params]
    let fs3 := stabEngineState eng ow targetDir outputPath tmpPath fs
    if eng.raises then
      (.error .engineFailed, fs3, effs)
    else
      if !(fs3.existsFile outputPath) || fs3.sizeOf outputPath == 0 then
        let fs4 := if fs3.existsFile tmpPath && fs3.sizeOf tmpPath == 0 then
          fs3.unlink tmpPath else fs3
        (.error .incompleteOutput, fs4, effs)
      else
        (.ok .written, fs3, effs)

/-- `stabilize_footage` (process_footage.py lines 241-270): for each listed
file, skip when the target already has it, else run `stabilize_file` with
`overwrite=False` and default parameters.  There is no `try` around the call,
so a raise from `stabilize_one` propagates and ends the loop (`.error`). -/
def stabilize_footage (engines : String → EngineBehavior) (srcDir tgtDir : String)
    (fs : FS) : List String → Except StabErr (List StabOutcome) × FS × List StabEffect
  | [] => (.ok [], fs, [])
  | fn :: rest =>
    if fs.existsFile (pathJoin tgtDir fn) then
      match stabilize_footage engines srcDir tgtDir fs rest with
      | (.ok os, fs', effs) => (.ok (.skippedStab :: os), fs', effs)
      | (.error e, fs', effs) => (.error e, fs', effs)
    else
      match stabilize_one (engines fn) {} false srcDir fn tgtDir fs with
      | (.error e, fs1, effs1) => (.error e, fs1, effs1)
      | (.ok o, fs1, effs1) =>
        match stabilize_footage engines srcDir tgtDir fs1 rest with
        | (.ok os, fs2, effs2) => (.ok (o :: os), fs2, effs1 ++ effs2)
        | (.error e, fs2, effs2) => (.error e, fs2, effs1 ++ effs2)

/-! ## Helper lemmas -/

theorem classify_eq_ignore_iff {s l u : Nat} : classify s l u = .ignore ↔ u < s := by
  unfold classify
  split_ifs with h1 h2 <;> simp <;> omega

theorem classify_continuation_bounds {s l u : Nat} (h : classify s l u = .continuation) :
    l < s ∧ s ≤ u := by
  unfold classify at h
  split_ifs at h with h1 h2
  all_goals simp_all

theorem classify_terminal_bound {s l u : Nat} (h : classify s l u = .terminal) : s ≤ l := by
  unfold classify at h
  split_ifs at h with h1 h2
  all_goals simp_all

theorem assembleAux_flatten (lower upper : Nat) :
    ∀ (files parts : List SegFile),
      (assembleAux lower upper files parts).flatten ++ leftoverAux lower upper files parts
        = parts ++ files.filter (fun f => decide (f.size ≤ upper)) := by
  intro files
  induction files with
  | nil => intro parts; simp [assembleAux, leftoverAux]
  | cons f rest ih =>
    intro parts
    rcases hc : classify f.size lower upper with _ | _ | _
    · have hgt : upper < f.size := classify_eq_ignore_iff.mp hc
      have hp : decide (f.size ≤ upper) = false := by simp; omega
      simp [assembleAux, leftoverAux, hc, List.filter_cons, hp, ih parts]
    · have hle : f.size ≤ upper := (classify_continuation_bounds hc).2
      have hp : decide (f.size ≤ upper) = true := by simpa using hle
      simp [assembleAux, leftoverAux, hc, List.filter_cons, hp, ih (parts ++ [f])]
    · have hle : f.size ≤ upper := by
        have := classify_terminal_bound hc
        by_cases hgu : upper < f.size
        · exact absurd hc (by simp [classify_eq_ignore_iff.mpr hgu])
        · omega
      have hp : decide (f.size ≤ upper) = true := by simpa using hle
      simp [assembleAux, leftoverAux, hc, List.filter_cons, hp, ih []]

theorem assembleAux_shape (lower upper : Nat) :
    ∀ (files parts : List SegFile),
      (∀ f ∈ parts, classify f.size lower upper = .continuation) →
      ∀ s ∈ assembleAux lower upper files parts,
        s ≠ [] ∧ (∀ f ∈ s.dropLast, classify f.size lower upper = .continuation) ∧
        (∀ f, s.getLast? = some f → classify f.size lower upper = .terminal) := by
  intro files
  induction files with
  | nil => intro parts _ s hs; simp [assembleAux] at hs
  | cons f rest ih =>
    intro parts hparts s hs
    rcases hc : classify f.size lower upper with _ | _ | _ <;> rw [assembleAux, hc] at hs
    · exact ih parts hparts s hs
    · refine ih (parts ++ [f]) ?_ s hs
      intro g hg
      rcases List.mem_append.mp hg with h | h
      · exact hparts g h
      · simp at h; subst h; exact hc
    · rcases List.mem_cons.mp hs with h | h
      · subst h
        refine ⟨by simp, ?_, ?_⟩
        · intro g hg
          rw [List.dropLast_concat] at hg
          exact hparts g hg
        · intro g hg
          rw [List.getLast?_concat] at hg
          cases hg
          exact hc
      · exact ih [] (by simp) s h

theorem lookup_filter_ne (p : String) :
    ∀ l : List (String × List Nat), (l.filter (fun e => !(e.1 == p))).lookup p = none := by
  intro l
  induction l with
  | nil => simp
  | cons a t ih =>
    by_cases h : a.1 = p
    · simp [List.filter_cons, h, ih]
    · have hb : (a.1 == p) = false := by simpa using h
      have hb2 : (p == a.1) = false := by simpa using (Ne.symm h)
      simp [List.filter_cons, hb, List.lookup, hb2, ih]

theorem FS.existsFile_unlink_self (fs : FS) (p : String) :
    (fs.unlink p).existsFile p = false := by
  simp [FS.existsFile, FS.unlink, lookup_filter_ne]

theorem lexLt_irrefl : ∀ l : List Char, lexLt l l = false := by
  intro l
  induction l with
  | nil => rfl
  | cons a as ih => rw [lexLt, if_neg (lt_irrefl a), if_pos rfl]; exact ih

theorem nameLt_ne {a b : SegFile} (h : nameLt a b) : a ≠ b := by
  intro he
  subst he
  unfold nameLt at h
  rw [lexLt_irrefl] at h
  exact Bool.false_ne_true h

theorem lookup_filter_other {p q : String} (h : p ≠ q) :
    ∀ l : List (String × List Nat),
      (l.filter (fun e => !(e.1 == q))).lookup p = l.lookup p := by
  intro l
  induction l with
  | nil => simp
  | cons a t ih =>
    by_cases haq : a.1 = q
    · have hpa : (p == a.1) = false := by simpa [haq] using h
      have hq : (p == q) = false := by simpa using h
      simp [List.filter_cons, haq, List.lookup, hpa, hq, ih]
    · have hb : (a.1 == q) = false := by simpa using haq
      by_cases hpa : p = a.1
      · simp [List.filter_cons, hb, List.lookup, hpa]
      · have hpa' : (p == a.1) = false := by simpa using hpa
        simp [List.filter_cons, hb, List.lookup, hpa', ih]

theorem FS.readFile_writeFile_self (fs : FS) (p : String) (bytes : List Nat) :
    (fs.writeFile p bytes).readFile p = some bytes := by
  simp [FS.readFile, FS.writeFile, List.lookup]

theorem FS.existsFile_writeFile_other (fs : FS) {src dst : String} (h : src ≠ dst)
    (bytes : List Nat) :
    (fs.writeFile dst bytes).existsFile src = fs.existsFile src := by
  have h' : (src == dst) = false := by simpa using h
  simp [FS.existsFile, FS.writeFile, FS.unlink, List.lookup, h',
    lookup_filter_other h fs.files]

theorem mergeStep_ok (env : MergeEnv) (srcDir tgtDir : String) (fs : FS)
    (f0 : SegFile) (r : List SegFile) (base : String)
    (hfmt : format_dji_filename f0.name = some base) :
    ∃ o fs' effs, mergeStep env srcDir tgtDir fs (f0 :: r) = .ok (o, fs', effs) := by
  simp only [mergeStep, hfmt]
  split_ifs <;> exact ⟨_, _, _, rfl⟩

/-! ## Claim theorems -/

/-- C2: the segment classifier is a total function of the size: for every
size and thresholds with `lower_bound < upper_bound`, `size > upper_bound`
is exactly `Ignore`, `lower_bound < size ≤ upper_bound` exactly
`Continuation`, `size ≤ lower_bound` exactly `Terminal`; in particular
`size = upper_bound` is `Continuation` and `size = lower_bound` is
`Terminal`.  Totality and uniqueness hold because `classify` is a function
into the three-verdict type and the three characterisations partition. -/
theorem classify_total_trichotomy (size lower upper : Nat) (h : lower < upper) :
    (classify size lower upper = .ignore ↔ upper < size) ∧
    (classify size lower upper = .continuation ↔ lower < size ∧ size ≤ upper) ∧
    (classify size lower upper = .terminal ↔ size ≤ lower) ∧
    classify upper lower upper = .continuation ∧
    classify lower lower upper = .terminal := by
  unfold classify
  refine ⟨?_, ?_, ?_, ?_, ?_⟩ <;> split_ifs <;> simp_all <;> omega

/-- Witness for C2 at `size = 3900000000`, `lower = 3760000000`,
`upper = 4000000000`. -/
theorem classify_total_trichotomy_witness :
    (3760000000 : Nat) < 4000000000 ∧
    ((classify 3900000000 3760000000 4000000000 = .ignore ↔ 4000000000 < 3900000000) ∧
     (classify 3900000000 3760000000 4000000000 = .continuation ↔
       3760000000 < 3900000000 ∧ 3900000000 ≤ 4000000000) ∧
     (classify 3900000000 3760000000 4000000000 = .terminal ↔ 3900000000 ≤ 3760000000) ∧
     classify 4000000000 3760000000 4000000000 = .continuation ∧
     classify 3760000000 3760000000 4000000000 = .terminal) :=
  ⟨by decide, classify_total_trichotomy 3900000000 3760000000 4000000000 (by decide)⟩

/-- C7: every sequence emitted by the assembler is non-empty, every element
except possibly the last is Continuation-classified, and the last element is
Terminal-classified or the sequence has length 1. -/
theorem sequence_shape_invariant (lower upper : Nat) (files : List SegFile)
    (s : List SegFile) (hs : s ∈ assemble lower upper files) :
    s ≠ [] ∧ (∀ f ∈ s.dropLast, classify f.size lower upper = .continuation) ∧
    ((∃ f, s.getLast? = some f ∧ classify f.size lower upper = .terminal) ∨
      s.length = 1) := by
  obtain ⟨hne, hdrop, hlast⟩ :=
    assembleAux_shape lower upper files [] (by simp) s hs
  refine ⟨hne, hdrop, Or.inl ?_⟩
  obtain ⟨f, hf⟩ := Option.isSome_iff_exists.mp (List.getLast?_isSome.mpr hne)
  exact ⟨f, hf, hlast f hf⟩

/-- Witness for C7: the singleton terminal file at size 1 with bounds 3/7. -/
theorem sequence_shape_invariant_witness :
    [(⟨"DJI_a", 1⟩ : SegFile)] ∈ assemble 3 7 [⟨"DJI_a", 1⟩] ∧
    ([(⟨"DJI_a", 1⟩ : SegFile)] ≠ [] ∧
     (∀ f ∈ [(⟨"DJI_a", 1⟩ : SegFile)].dropLast, classify f.size 3 7 = .continuation) ∧
     ((∃ f, [(⟨"DJI_a", 1⟩ : SegFile)].getLast? = some f ∧ classify f.size 3 7 = .terminal) ∨
       [(⟨"DJI_a", 1⟩ : SegFile)].length = 1)) :=
  ⟨by decide, sequence_shape_invariant 3 7 [⟨"DJI_a", 1⟩] [⟨"DJI_a", 1⟩] (by decide)⟩

/-- C1: on a lexicographically sorted candidate list (strictly sorted, as a
directory listing is), every Ignore-classified file (size above the upper
bound) is in no emitted sequence; a file is in the union of the emitted
sequences exactly when it is a non-Ignore input file outside the discarded
trailing buffer; the emitted sequences are pairwise disjoint; and no element
of the trailing buffer is emitted. -/
theorem assemble_partition (lower upper : Nat) (files : List SegFile)
    (hsorted : files.Pairwise nameLt) :
    (∀ s ∈ assemble lower upper files, ∀ f ∈ s, ¬ upper < f.size) ∧
    (∀ f : SegFile, f ∈ (assemble lower upper files).flatten ↔
      (f ∈ files ∧ f.size ≤ upper ∧ f ∉ leftoverBuffer lower upper files)) ∧
    (assemble lower upper files).Pairwise List.Disjoint ∧
    (∀ f ∈ leftoverBuffer lower upper files, f ∉ (assemble lower upper files).flatten) := by
  have hnd : files.Nodup := List.Pairwise.imp (fun hab => nameLt_ne hab) hsorted
  have key : (assemble lower upper files).flatten ++ leftoverBuffer lower upper files
      = files.filter (fun f => decide (f.size ≤ upper)) := by
    simpa [assemble, leftoverBuffer] using assembleAux_flatten lower upper files []
  have hfNodup : (files.filter (fun f => decide (f.size ≤ upper))).Nodup := hnd.filter _
  have happNodup : ((assemble lower upper files).flatten
      ++ leftoverBuffer lower upper files).Nodup := key ▸ hfNodup
  have hdisj : List.Disjoint (assemble lower upper files).flatten
      (leftoverBuffer lower upper files) := List.disjoint_of_nodup_append happNodup
  refine ⟨?_, ?_, ?_, ?_⟩
  · intro s hs f hf hgt
    have hmem : f ∈ (assemble lower upper files).flatten :=
      List.mem_flatten.mpr ⟨s, hs, hf⟩
    have : f ∈ files.filter (fun f => decide (f.size ≤ upper)) :=
      key ▸ List.mem_append_left _ hmem
    have := List.of_mem_filter this
    simp at this
    omega
  · intro f
    constructor
    · intro hmem
      have hfil : f ∈ files.filter (fun f => decide (f.size ≤ upper)) :=
        key ▸ List.mem_append_left _ hmem
      exact ⟨List.mem_of_mem_filter hfil, by simpa using List.of_mem_filter hfil,
        hdisj hmem⟩
    · rintro ⟨hin, hle, hnl⟩
      have hfil : f ∈ files.filter (fun f => decide (f.size ≤ upper)) :=
        List.mem_filter.mpr ⟨hin, by simpa using hle⟩
      rcases List.mem_append.mp (key ▸ hfil) with h | h
      · exact h
      · exact absurd h hnl
  · exact (List.nodup_flatten.mp (List.Nodup.of_append_left happNodup)).2
  · intro f hf hmem
    exact hdisj hmem hf

/-- Witness for C1: four sorted files (continuation 5, terminal 1, ignored 9,
trailing continuation 5) with bounds 3/7. -/
theorem assemble_partition_witness :
    ([⟨"DJI_a", 5⟩, ⟨"DJI_b", 1⟩, ⟨"DJI_c", 9⟩, ⟨"DJI_d", 5⟩] :
        List SegFile).Pairwise nameLt ∧
    ((∀ s ∈ assemble 3 7 [⟨"DJI_a", 5⟩, ⟨"DJI_b", 1⟩, ⟨"DJI_c", 9⟩, ⟨"DJI_d", 5⟩],
        ∀ f ∈ s, ¬ 7 < f.size) ∧
     (∀ f : SegFile,
        f ∈ (assemble 3 7 [⟨"DJI_a", 5⟩, ⟨"DJI_b", 1⟩, ⟨"DJI_c", 9⟩, ⟨"DJI_d", 5⟩]).flatten ↔
        (f ∈ [⟨"DJI_a", 5⟩, ⟨"DJI_b", 1⟩, ⟨"DJI_c", 9⟩, ⟨"DJI_d", 5⟩] ∧ f.size ≤ 7 ∧
          f ∉ leftoverBuffer 3 7 [⟨"DJI_a", 5⟩, ⟨"DJI_b", 1⟩, ⟨"DJI_c", 9⟩, ⟨"DJI_d", 5⟩])) ∧
     (assemble 3 7 [⟨"DJI_a", 5⟩, ⟨"DJI_b", 1⟩, ⟨"DJI_c", 9⟩, ⟨"DJI_d", 5⟩]).Pairwise
        List.Disjoint ∧
     (∀ f ∈ leftoverBuffer 3 7 [⟨"DJI_a", 5⟩, ⟨"DJI_b", 1⟩, ⟨"DJI_c", 9⟩, ⟨"DJI_d", 5⟩],
        f ∉ (assemble 3 7 [⟨"DJI_a", 5⟩, ⟨"DJI_b", 1⟩, ⟨"DJI_c", 9⟩, ⟨"DJI_d", 5⟩]).flatten)) :=
  ⟨by decide,
    assemble_partition 3 7 [⟨"DJI_a", 5⟩, ⟨"DJI_b", 1⟩, ⟨"DJI_c", 9⟩, ⟨"DJI_d", 5⟩] (by decide)⟩

/-- C9: the end-to-end scenario: the two segments of sizes 3.9e9 and 1.2e9
with bounds 3.76e9/4.0e9 assemble into one two-element sequence; the namer
yields `2025.01.01 12.00`; and the merge stage invokes the engine with both
absolute paths in order and output `2025.01.01 12.00.mp4` in the
intermediate directory. -/
theorem end_to_end_scenario :
    get_footage_sequences
        [⟨"A_20250101120000_0001.MP4", 3900000000⟩,
         ⟨"A_20250101120000_0002.MP4", 1200000000⟩] =
      [[⟨"A_20250101120000_0001.MP4", 3900000000⟩,
        ⟨"A_20250101120000_0002.MP4", 1200000000⟩]] ∧
    format_dji_filename "A_20250101120000_0001.MP4" = some "2025.01.01 12.00" ∧
    merge_sequences ⟨fun _ _ => true⟩ source_folder merged_folder ⟨[], []⟩
        [[⟨"A_20250101120000_0001.MP4", 3900000000⟩,
          ⟨"A_20250101120000_0002.MP4", 1200000000⟩]] =
      .ok ([.merged], ⟨[], []⟩,
        [.engineInvoke
          ["/srv/storage/_/A_20250101120000_0001.MP4",
           "/srv/storage/_/A_20250101120000_0002.MP4"]
          "/srv/storage/_/merged_footage/2025.01.01 12.00.mp4"]) :=
  ⟨by decide, by decide, rfl⟩

/-- C5 counterexample: `"A_123_x.MP4"` has a timestamp field of length 3
(fewer than 12 digits after the first underscore), yet `format_dji_filename`
does not fail: it returns the truncated identity `"123.. ."`. -/
theorem derive_name_truncated_cex :
    ((splitOnChar '_' ("A_123_x.MP4").data).get? 1).map List.length = some 3 ∧
    format_dji_filename "A_123_x.MP4" = some "123.. ." := by
  exact ⟨by decide, by decide⟩

/-- C5 amended: the namer fails only when the name has no underscore at all
(fewer than two `split('_')` fields); an underscore-bearing name with a
short timestamp field returns a truncated identity without error; and when
the namer does fail, the error propagates uncaught out of `merge_sequences`
and aborts the entire batch instead of skipping just that sequence. -/
theorem derive_name_failure_amended :
    (∀ n : String,
      format_dji_filename n = none ↔ (splitOnChar '_' n.data).length ≤ 1) ∧
    (∀ (env : MergeEnv) (srcDir tgtDir : String) (fs : FS) (f0 : SegFile)
        (seq : List SegFile) (rest : List (List SegFile)),
      format_dji_filename f0.name = none →
      merge_sequences env srcDir tgtDir fs ((f0 :: seq) :: rest) =
        .error "IndexError: split failed") := by
  constructor
  · intro n
    unfold format_dji_filename
    rcases h : (splitOnChar '_' n.data).get? 1 with _ | ts
    · simp [List.get?_eq_none.mp h]
    · obtain ⟨hlt, _⟩ := List.get?_eq_some.mp h
      simp
      omega
  · intro env srcDir tgtDir fs f0 seq rest h
    simp [merge_sequences, mergeStep, h]

/-- Witness for C5 amended at the underscore-free name
`"noUnderscore.MP4"`. -/
theorem derive_name_failure_amended_witness :
    (format_dji_filename "noUnderscore.MP4" = none ↔
      (splitOnChar '_' ("noUnderscore.MP4").data).length ≤ 1) ∧
    format_dji_filename "noUnderscore.MP4" = none ∧
    merge_sequences ⟨fun _ _ => true⟩ "/src" "/dst" ⟨[], []⟩
        [[⟨"noUnderscore.MP4", 1⟩], [⟨"DJI_20250101120000_0001_D.MP4", 1⟩]] =
      .error "IndexError: split failed" :=
  ⟨derive_name_failure_amended.1 "noUnderscore.MP4", by decide,
    derive_name_failure_amended.2 ⟨fun _ _ => true⟩ "/src" "/dst" ⟨[], []⟩
      ⟨"noUnderscore.MP4", 1⟩ [] [[⟨"DJI_20250101120000_0001_D.MP4", 1⟩]] (by decide)⟩

/-- C3 counterexample: the module-level merge loop of proccess.py re-invokes
the engine on a two-segment sequence although the computed output path
(`/dst/2025.01.01_12.00.mp4`, proccess.py's underscore name format) already
exists on disk — the outcome is `merged`, not `skipped`, with one engine
invocation instead of zero. -/
theorem proccess_loop_not_idempotent_cex :
    proccess_format_dji_filename "DJI_20250101120000_0001_D.MP4" =
      some "2025.01.01_12.00" ∧
    proccessMergeLoop ⟨fun _ _ => true⟩ "/src" "/dst"
        ⟨[("/dst/2025.01.01_12.00.mp4", [1])], []⟩
        [[⟨"DJI_20250101120000_0001_D.MP4", 3900000000⟩,
          ⟨"DJI_20250101120000_0002_D.MP4", 1200000000⟩]] =
      .ok ([.merged], ⟨[("/dst/2025.01.01_12.00.mp4", [1])], []⟩,
        [.engineInvoke
          ["/src/DJI_20250101120000_0001_D.MP4", "/src/DJI_20250101120000_0002_D.MP4"]
          "/dst/2025.01.01_12.00.mp4"]) := ⟨rfl, rfl⟩

/-- C3 amended: in `merge_sequences` (process_footage.py and merge_files.py)
a re-run on which every computed output path already exists performs zero
engine invocations and zero relocations and yields `skipped` everywhere; the
proccess.py module-level loop, by contrast, has no existence check and
always invokes the engine on a multi-segment sequence, whatever the
filesystem state; its output name comes from proccess.py's own
underscore-formatting namer. -/
theorem merge_stage_idempotent_amended :
    (∀ (env : MergeEnv) (srcDir tgtDir : String) (fs : FS)
        (seqs : List (List SegFile)),
      (∀ seq ∈ seqs, ∃ f0 rest base, seq = f0 :: rest ∧
        format_dji_filename f0.name = some base ∧
        fs.existsFile (pathJoin tgtDir (base ++ ".mp4")) = true) →
      merge_sequences env srcDir tgtDir fs seqs =
        .ok (seqs.map (fun _ => .skipped), fs, [])) ∧
    (∀ (env : MergeEnv) (srcDir tgtDir : String) (fs : FS) (f0 f1 : SegFile)
        (more : List SegFile) (base : String),
      proccess_format_dji_filename f0.name = some base →
      ∃ os fs', proccessMergeLoop env srcDir tgtDir fs [f0 :: f1 :: more] =
        .ok (os, fs',
          [.engineInvoke ((f0 :: f1 :: more).map (fun f => pathJoin srcDir f.name))
            (pathJoin tgtDir (base ++ ".mp4"))])) := by
  constructor
  · intro env srcDir tgtDir fs seqs
    induction seqs with
    | nil => intro _; simp [merge_sequences]
    | cons seq rest ih =>
      intro h
      obtain ⟨f0, r, base, hseq, hfmt, hex⟩ := h seq (List.mem_cons_self seq rest)
      subst hseq
      simp [merge_sequences, mergeStep, hfmt, hex,
        ih (fun q hq => h q (List.mem_cons_of_mem _ hq))]
  · intro env srcDir tgtDir fs f0 f1 more base hfmt
    by_cases hok : env.engineOk
        (pathJoin srcDir f0.name :: pathJoin srcDir f1.name ::
          more.map (fun f => pathJoin srcDir f.name))
        (pathJoin tgtDir (base ++ ".mp4")) = true
    · exact ⟨[.merged], fs, by simp [proccessMergeLoop, hfmt, hok]⟩
    · exact ⟨[.mergeFailed], fs,
        by simp [proccessMergeLoop, hfmt, Bool.not_eq_true _ ▸ hok]⟩

/-- Witness for C3 amended: one single-segment and one two-segment sequence
whose outputs both exist, skipped by `merge_sequences`; and the generic
proccess.py invocation at a concrete two-segment sequence. -/
theorem merge_stage_idempotent_amended_witness :
    (∀ seq ∈ [[(⟨"DJI_20250101120000_0001_D.MP4", 3900000000⟩ : SegFile),
               ⟨"DJI_20250101120000_0002_D.MP4", 1200000000⟩],
              [(⟨"DJI_20250102120000_0001_D.MP4", 500⟩ : SegFile)]],
      ∃ f0 rest base, seq = f0 :: rest ∧
        format_dji_filename f0.name = some base ∧
        FS.existsFile ⟨[("/dst/2025.01.01 12.00.mp4", [1]),
                        ("/dst/2025.01.02 12.00.mp4", [2])], []⟩
          (pathJoin "/dst" (base ++ ".mp4")) = true) ∧
    merge_sequences ⟨fun _ _ => true⟩ "/src" "/dst"
        ⟨[("/dst/2025.01.01 12.00.mp4", [1]), ("/dst/2025.01.02 12.00.mp4", [2])], []⟩
        [[⟨"DJI_20250101120000_0001_D.MP4", 3900000000⟩,
          ⟨"DJI_20250101120000_0002_D.MP4", 1200000000⟩],
         [⟨"DJI_20250102120000_0001_D.MP4", 500⟩]] =
      .ok ([[(⟨"DJI_20250101120000_0001_D.MP4", 3900000000⟩ : SegFile),
             ⟨"DJI_20250101120000_0002_D.MP4", 1200000000⟩],
            [(⟨"DJI_20250102120000_0001_D.MP4", 500⟩ : SegFile)]].map (fun _ => .skipped),
        ⟨[("/dst/2025.01.01 12.00.mp4", [1]), ("/dst/2025.01.02 12.00.mp4", [2])], []⟩, []) ∧
    (∃ os fs', proccessMergeLoop ⟨fun _ _ => true⟩ "/src" "/dst" ⟨[], []⟩
        [[⟨"DJI_20250101120000_0001_D.MP4", 3900000000⟩,
          ⟨"DJI_20250101120000_0002_D.MP4", 1200000000⟩]] =
      .ok (os, fs',
        [.engineInvoke ([(⟨"DJI_20250101120000_0001_D.MP4", 3900000000⟩ : SegFile),
                         ⟨"DJI_20250101120000_0002_D.MP4", 1200000000⟩].map
            (fun f => pathJoin "/src" f.name))
          (pathJoin "/dst" ("2025.01.01_12.00" ++ ".mp4"))])) := by
  refine ⟨?_, ?_, ?_⟩
  · exact fun seq hseq => by
      fin_cases hseq
      · exact ⟨_, _, "2025.01.01 12.00", rfl, by decide, by decide⟩
      · exact ⟨_, _, "2025.01.02 12.00", rfl, by decide, by decide⟩
  · exact merge_stage_idempotent_amended.1 ⟨fun _ _ => true⟩ "/src" "/dst"
      ⟨[("/dst/2025.01.01 12.00.mp4", [1]), ("/dst/2025.01.02 12.00.mp4", [2])], []⟩
      _ (fun seq hseq => by
        fin_cases hseq
        · exact ⟨_, _, "2025.01.01 12.00", rfl, by decide, by decide⟩
        · exact ⟨_, _, "2025.01.02 12.00", rfl, by decide, by decide⟩)
  · exact merge_stage_idempotent_amended.2 ⟨fun _ _ => true⟩ "/src" "/dst" ⟨[], []⟩
      ⟨"DJI_20250101120000_0001_D.MP4", 3900000000⟩
      ⟨"DJI_20250101120000_0002_D.MP4", 1200000000⟩ [] "2025.01.01_12.00" (by decide)

/-- C8 counterexample: the proccess.py loop handles a single-segment
sequence with `shutil.copy2`, not a rename: the effect is a copy to the
underscore-formatted output name `/dst/2025.01.01_12.00.mp4` and the source
file still exists afterwards, so the file is not relocated. -/
theorem proccess_single_copy_cex :
    proccess_format_dji_filename "DJI_20250101120000_0001_D.MP4" =
      some "2025.01.01_12.00" ∧
    proccessMergeLoop ⟨fun _ _ => true⟩ "/src" "/dst"
        ⟨[("/src/DJI_20250101120000_0001_D.MP4", [7, 8])], []⟩
        [[⟨"DJI_20250101120000_0001_D.MP4", 100⟩]] =
      .ok ([.copied],
        ⟨[("/dst/2025.01.01_12.00.mp4", [7, 8]),
          ("/src/DJI_20250101120000_0001_D.MP4", [7, 8])], []⟩,
        [.copyFile "/src/DJI_20250101120000_0001_D.MP4" "/dst/2025.01.01_12.00.mp4"]) ∧
    FS.existsFile
        ⟨[("/dst/2025.01.01_12.00.mp4", [7, 8]),
          ("/src/DJI_20250101120000_0001_D.MP4", [7, 8])], []⟩
        "/src/DJI_20250101120000_0001_D.MP4" = true :=
  ⟨rfl, rfl, rfl⟩

/-- C8 amended: neither implementation invokes the merge engine on a
single-segment sequence.  `merge_sequences` (process_footage.py,
merge_files.py) renames the file: the output carries the source's exact
bytes and the source entry is gone.  The proccess.py loop instead copies
(`shutil.copy2`) to its own underscore-formatted output name: the output
carries the same bytes but the source file remains in place. -/
theorem single_segment_relocation_amended :
    (∀ (env : MergeEnv) (srcDir tgtDir : String) (fs : FS) (f0 : SegFile)
        (base : String) (bytes : List Nat),
      format_dji_filename f0.name = some base →
      fs.existsFile (pathJoin tgtDir (base ++ ".mp4")) = false →
      fs.readFile (pathJoin srcDir f0.name) = some bytes →
      merge_sequences env srcDir tgtDir fs [[f0]] =
        .ok ([.moved],
          (fs.unlink (pathJoin srcDir f0.name)).writeFile
            (pathJoin tgtDir (base ++ ".mp4")) bytes,
          [.renameFile (pathJoin srcDir f0.name) (pathJoin tgtDir (base ++ ".mp4"))])) ∧
    (∀ (fs : FS) (p : String) (bytes : List Nat),
      (fs.writeFile p bytes).readFile p = some bytes) ∧
    (∀ (fs : FS) (src dst : String) (bytes : List Nat), src ≠ dst →
      ((fs.unlink src).writeFile dst bytes).existsFile src = false) ∧
    (∀ (env : MergeEnv) (srcDir tgtDir : String) (fs : FS) (f0 : SegFile)
        (base : String) (bytes : List Nat),
      proccess_format_dji_filename f0.name = some base →
      fs.readFile (pathJoin srcDir f0.name) = some bytes →
      proccessMergeLoop env srcDir tgtDir fs [[f0]] =
        .ok ([.copied], fs.writeFile (pathJoin tgtDir (base ++ ".mp4")) bytes,
          [.copyFile (pathJoin srcDir f0.name) (pathJoin tgtDir (base ++ ".mp4"))])) := by
  refine ⟨?_, FS.readFile_writeFile_self, ?_, ?_⟩
  · intro env srcDir tgtDir fs f0 base bytes hfmt hex hsrc
    have hsrc' : fs.files.lookup (pathJoin srcDir f0.name) = some bytes := hsrc
    simp [merge_sequences, mergeStep, hfmt, hex, FS.rename, hsrc']
  · intro fs src dst bytes h
    rw [FS.existsFile_writeFile_other _ h, FS.existsFile_unlink_self]
  · intro env srcDir tgtDir fs f0 base bytes hfmt hsrc
    have hsrc' : fs.files.lookup (pathJoin srcDir f0.name) = some bytes := hsrc
    simp [proccessMergeLoop, hfmt, FS.copy, hsrc']

/-- Witness for C8 amended at a concrete single-segment sequence with
content `[7, 8]`. -/
theorem single_segment_relocation_amended_witness :
    format_dji_filename "DJI_20250101120000_0001_D.MP4" = some "2025.01.01 12.00" ∧
    FS.existsFile ⟨[("/src/DJI_20250101120000_0001_D.MP4", [7, 8])], []⟩
      (pathJoin "/dst" ("2025.01.01 12.00" ++ ".mp4")) = false ∧
    FS.readFile ⟨[("/src/DJI_20250101120000_0001_D.MP4", [7, 8])], []⟩
      (pathJoin "/src" (SegFile.name ⟨"DJI_20250101120000_0001_D.MP4", 100⟩)) = some [7, 8] ∧
    merge_sequences ⟨fun _ _ => true⟩ "/src" "/dst"
        ⟨[("/src/DJI_20250101120000_0001_D.MP4", [7, 8])], []⟩
        [[⟨"DJI_20250101120000_0001_D.MP4", 100⟩]] =
      .ok ([.moved],
        (FS.unlink ⟨[("/src/DJI_20250101120000_0001_D.MP4", [7, 8])], []⟩
            (pathJoin "/src" (SegFile.name ⟨"DJI_20250101120000_0001_D.MP4", 100⟩))).writeFile
          (pathJoin "/dst" ("2025.01.01 12.00" ++ ".mp4")) [7, 8],
        [.renameFile (pathJoin "/src" (SegFile.name ⟨"DJI_20250101120000_0001_D.MP4", 100⟩))
          (pathJoin "/dst" ("2025.01.01 12.00" ++ ".mp4"))]) ∧
    proccess_format_dji_filename "DJI_20250101120000_0001_D.MP4" =
      some "2025.01.01_12.00" ∧
    proccessMergeLoop ⟨fun _ _ => true⟩ "/src" "/dst"
        ⟨[("/src/DJI_20250101120000_0001_D.MP4", [7, 8])], []⟩
        [[⟨"DJI_20250101120000_0001_D.MP4", 100⟩]] =
      .ok ([.copied],
        FS.writeFile ⟨[("/src/DJI_20250101120000_0001_D.MP4", [7, 8])], []⟩
          (pathJoin "/dst" ("2025.01.01_12.00" ++ ".mp4")) [7, 8],
        [.copyFile (pathJoin "/src" (SegFile.name ⟨"DJI_20250101120000_0001_D.MP4", 100⟩))
          (pathJoin "/dst" ("2025.01.01_12.00" ++ ".mp4"))]) :=
  ⟨by decide, by decide, by decide,
    single_segment_relocation_amended.1 ⟨fun _ _ => true⟩ "/src" "/dst"
      ⟨[("/src/DJI_20250101120000_0001_D.MP4", [7, 8])], []⟩
      ⟨"DJI_20250101120000_0001_D.MP4", 100⟩ "2025.01.01 12.00" [7, 8]
      (by decide) (by decide) (by decide),
    by decide,
    single_segment_relocation_amended.2.2.2 ⟨fun _ _ => true⟩ "/src" "/dst"
      ⟨[("/src/DJI_20250101120000_0001_D.MP4", [7, 8])], []⟩
      ⟨"DJI_20250101120000_0001_D.MP4", 100⟩ "2025.01.01_12.00" [7, 8]
      (by decide) (by decide)⟩

/-- C4 counterexample: with an engine that exits non-zero on the first item,
the stabilize batch aborts: the result is an uncaught `CalledProcessError`,
only the first file's engine invocation ever happens, and the second file is
never processed. -/
theorem stabilize_batch_abort_cex :
    stabilize_footage (fun _ => ⟨true, []⟩) "/in" "/out"
        ⟨[("/in/a.mp4", [1]), ("/in/b.mp4", [1])], []⟩ ["a.mp4", "b.mp4"] =
      (.error .engineFailed,
        ⟨[("/in/a.mp4", [1]), ("/in/b.mp4", [1])], ["/out"]⟩,
        [.mkdirDir "/out", .engineInvoke "/in/a.mp4" "/out" "a.mp4" ⟨120, 80⟩]) :=
  rfl

/-- C4 amended: merge-stage per-item engine failures are caught
(`merge_mp4` returns `False`): the batch never aborts — every sequence with
a well-formed head name yields an outcome, and a failing multi-segment merge
is reported as `mergeFailed` while processing continues.  Stabilize-stage
per-item failures are NOT caught: an engine failure on any item aborts the
whole batch. -/
theorem failure_containment_amended :
    (∀ (env : MergeEnv) (srcDir tgtDir : String) (seqs : List (List SegFile)),
      (∀ seq ∈ seqs, ∃ f0 rest, seq = f0 :: rest ∧
        (format_dji_filename f0.name).isSome) →
      ∀ fs : FS, ∃ os fs' effs,
        merge_sequences env srcDir tgtDir fs seqs = .ok (os, fs', effs) ∧
        os.length = seqs.length) ∧
    (∀ (env : MergeEnv) (srcDir tgtDir : String) (fs : FS) (f0 f1 : SegFile)
        (more : List SegFile) (base : String),
      format_dji_filename f0.name = some base →
      fs.existsFile (pathJoin tgtDir (base ++ ".mp4")) = false →
      env.engineOk
        (pathJoin srcDir f0.name :: pathJoin srcDir f1.name ::
          more.map (fun f => pathJoin srcDir f.name))
        (pathJoin tgtDir (base ++ ".mp4")) = false →
      mergeStep env srcDir tgtDir fs (f0 :: f1 :: more) =
        .ok (.mergeFailed, fs,
          [.engineInvoke
            (pathJoin srcDir f0.name :: pathJoin srcDir f1.name ::
              more.map (fun f => pathJoin srcDir f.name))
            (pathJoin tgtDir (base ++ ".mp4"))])) ∧
    (∀ (engines : String → EngineBehavior) (srcDir tgtDir : String) (fs : FS)
        (fn : String) (rest : List String),
      fs.existsFile (pathJoin tgtDir fn) = false →
      (engines fn).raises = true →
      (stabilize_footage engines srcDir tgtDir fs (fn :: rest)).1 =
        .error .engineFailed) := by
  refine ⟨?_, ?_, ?_⟩
  · intro env srcDir tgtDir seqs
    induction seqs with
    | nil => intro _ fs; exact ⟨[], fs, [], rfl, rfl⟩
    | cons seq rest ih =>
      intro h fs
      obtain ⟨f0, r, hseq, hfmt⟩ := h seq (List.mem_cons_self seq rest)
      subst hseq
      obtain ⟨base, hbase⟩ := Option.isSome_iff_exists.mp hfmt
      obtain ⟨o, fs1, effs1, hstep⟩ := mergeStep_ok env srcDir tgtDir fs f0 r base hbase
      obtain ⟨os, fs2, effs2, hrest, hlen⟩ :=
        ih (fun q hq => h q (List.mem_cons_of_mem _ hq)) fs1
      exact ⟨o :: os, fs2, effs1 ++ effs2, by simp [merge_sequences, hstep, hrest],
        by simp [hlen]⟩
  · intro env srcDir tgtDir fs f0 f1 more base hfmt hex hok
    simp [mergeStep, hfmt, hex, hok]
  · intro engines srcDir tgtDir fs fn rest h1 h2
    simp [stabilize_footage, stabilize_one, h1, h2]

/-- Witness for C4 amended: a one-sequence merge batch, a concrete failing
two-segment merge step, and a concrete failing stabilize head item. -/
theorem failure_containment_amended_witness :
    (∀ seq ∈ [[(⟨"DJI_20250101120000_0001_D.MP4", 500⟩ : SegFile)]],
      ∃ f0 rest, seq = f0 :: rest ∧ (format_dji_filename f0.name).isSome) ∧
    (∃ os fs' effs,
      merge_sequences ⟨fun _ _ => false⟩ "/src" "/dst" ⟨[], []⟩
        [[⟨"DJI_20250101120000_0001_D.MP4", 500⟩]] = .ok (os, fs', effs) ∧
      os.length = [[(⟨"DJI_20250101120000_0001_D.MP4", 500⟩ : SegFile)]].length) ∧
    mergeStep ⟨fun _ _ => false⟩ "/src" "/dst" ⟨[], []⟩
        [⟨"DJI_20250101120000_0001_D.MP4", 3900000000⟩,
         ⟨"DJI_20250101120000_0002_D.MP4", 1200000000⟩] =
      .ok (.mergeFailed, ⟨[], []⟩,
        [.engineInvoke
          (pathJoin "/src" (SegFile.name ⟨"DJI_20250101120000_0001_D.MP4", 3900000000⟩) ::
            pathJoin "/src" (SegFile.name ⟨"DJI_20250101120000_0002_D.MP4", 1200000000⟩) ::
            List.map (fun f : SegFile => pathJoin "/src" f.name) [])
          (pathJoin "/dst" ("2025.01.01 12.00" ++ ".mp4"))]) ∧
    (stabilize_footage (fun _ => ⟨true, []⟩) "/in" "/out" ⟨[], []⟩ ["a.mp4"]).1 =
      .error .engineFailed :=
  ⟨fun seq hseq => by
      fin_cases hseq
      exact ⟨⟨"DJI_20250101120000_0001_D.MP4", 500⟩, [], rfl, by decide⟩,
    failure_containment_amended.1 ⟨fun _ _ => false⟩ "/src" "/dst"
      [[⟨"DJI_20250101120000_0001_D.MP4", 500⟩]]
      (fun seq hseq => by
        fin_cases hseq
        exact ⟨⟨"DJI_20250101120000_0001_D.MP4", 500⟩, [], rfl, by decide⟩) ⟨[], []⟩,
    failure_containment_amended.2.1 ⟨fun _ _ => false⟩ "/src" "/dst" ⟨[], []⟩
      ⟨"DJI_20250101120000_0001_D.MP4", 3900000000⟩
      ⟨"DJI_20250101120000_0002_D.MP4", 1200000000⟩ [] "2025.01.01 12.00"
      (by decide) (by decide) (by decide),
    failure_containment_amended.2.2 (fun _ => ⟨true, []⟩) "/in" "/out" ⟨[], []⟩
      "a.mp4" [] (by decide) (by decide)⟩

/-- C6: when the engine returns (no raise) but the expected output is
missing or empty, `stabilize_one` reports the `RuntimeError` modelled as
`incompleteOutput`, and the final filesystem holds no zero-byte `.tmp`
artifact at the temporary path. -/
theorem stabilize_incomplete_output (eng : EngineBehavior)
    (params : StabilizationParams) (ow : Bool)
    (srcDir inputName targetDir : String) (fs : FS)
    (hskip : (fs.existsFile (pathJoin targetDir inputName) && !ow) = false)
    (hra : eng.raises = false)
    (hbad : (!((stabEngineState eng ow targetDir (pathJoin targetDir inputName)
          (pathJoin targetDir inputName ++ ".tmp") fs).existsFile
            (pathJoin targetDir inputName))
        || (stabEngineState eng ow targetDir (pathJoin targetDir inputName)
          (pathJoin targetDir inputName ++ ".tmp") fs).sizeOf
            (pathJoin targetDir inputName) == 0) = true) :
    (stabilize_one eng params ow srcDir inputName targetDir fs).1 =
      .error .incompleteOutput ∧
    (((stabilize_one eng params ow srcDir inputName targetDir fs).2.1.existsFile
        (pathJoin targetDir inputName ++ ".tmp"))
      && ((stabilize_one eng params ow srcDir inputName targetDir fs).2.1.sizeOf
        (pathJoin targetDir inputName ++ ".tmp") == 0)) = false := by
  by_cases htmp : ((stabEngineState eng ow targetDir (pathJoin targetDir inputName)
        (pathJoin targetDir inputName ++ ".tmp") fs).existsFile
          (pathJoin targetDir inputName ++ ".tmp")
      && (stabEngineState eng ow targetDir (pathJoin targetDir inputName)
        (pathJoin targetDir inputName ++ ".tmp") fs).sizeOf
          (pathJoin targetDir inputName ++ ".tmp") == 0) = true
  · refine ⟨by simp [stabilize_one, hskip, hra, hbad, htmp], ?_⟩
    simp [stabilize_one, hskip, hra, hbad, htmp, FS.existsFile_unlink_self]
  · rw [Bool.not_eq_true] at htmp
    refine ⟨by simp [stabilize_one, hskip, hra, hbad, htmp], ?_⟩
    simp [stabilize_one, hskip, hra, hbad, htmp]

/-- Witness for C6: an engine that only leaves a zero-byte `.tmp` behind. -/
theorem stabilize_incomplete_output_witness :
    ((FS.existsFile ⟨[], []⟩ (pathJoin "/out" "a.mp4") && !false) = false ∧
     (EngineBehavior.raises ⟨false, [("/out/a.mp4.tmp", [])]⟩) = false ∧
     (!((stabEngineState ⟨false, [("/out/a.mp4.tmp", [])]⟩ false "/out"
           (pathJoin "/out" "a.mp4") (pathJoin "/out" "a.mp4" ++ ".tmp")
           ⟨[], []⟩).existsFile (pathJoin "/out" "a.mp4"))
       || (stabEngineState ⟨false, [("/out/a.mp4.tmp", [])]⟩ false "/out"
           (pathJoin "/out" "a.mp4") (pathJoin "/out" "a.mp4" ++ ".tmp")
           ⟨[], []⟩).sizeOf (pathJoin "/out" "a.mp4") == 0) = true) ∧
    ((stabilize_one ⟨false, [("/out/a.mp4.tmp", [])]⟩ ⟨120, 80⟩ false
        "/in" "a.mp4" "/out" ⟨[], []⟩).1 = .error .incompleteOutput ∧
     (((stabilize_one ⟨false, [("/out/a.mp4.tmp", [])]⟩ ⟨120, 80⟩ false
          "/in" "a.mp4" "/out" ⟨[], []⟩).2.1.existsFile
            (pathJoin "/out" "a.mp4" ++ ".tmp"))
        && ((stabilize_one ⟨false, [("/out/a.mp4.tmp", [])]⟩ ⟨120, 80⟩ false
          "/in" "a.mp4" "/out" ⟨[], []⟩).2.1.sizeOf
            (pathJoin "/out" "a.mp4" ++ ".tmp") == 0)) = false) :=
  ⟨⟨by decide, by decide, by decide⟩,
    stabilize_incomplete_output ⟨false, [("/out/a.mp4.tmp", [])]⟩ ⟨120, 80⟩ false
      "/in" "a.mp4" "/out" ⟨[], []⟩ (by decide) (by decide) (by decide)⟩

/-- C10: a skipped stabilize item (output already present, overwrite off) is
pure: `stabilize_one` returns the unchanged filesystem with no effects (no
directory creation, no deletion, no engine invocation), and the batch loop's
own skip check is equally pure. -/
theorem skip_no_mutation (eng : EngineBehavior) (params : StabilizationParams)
    (engines : String → EngineBehavior) (srcDir inputName targetDir : String)
    (fs : FS) (hex : fs.existsFile (pathJoin targetDir inputName) = true) :
    stabilize_one eng params false srcDir inputName targetDir fs =
      (.ok .skippedStab, fs, []) ∧
    stabilize_footage engines srcDir targetDir fs [inputName] =
      (.ok [.skippedStab], fs, []) := by
  constructor
  · simp [stabilize_one, hex]
  · simp [stabilize_footage, hex]

/-- Witness for C10: the output file already exists with content `[1]`. -/
theorem skip_no_mutation_witness :
    FS.existsFile ⟨[("/out/a.mp4", [1])], []⟩ (pathJoin "/out" "a.mp4") = true ∧
    (stabilize_one ⟨true, [("/out/x", [])]⟩ ⟨120, 80⟩ false "/in" "a.mp4" "/out"
        ⟨[("/out/a.mp4", [1])], []⟩ =
      (.ok .skippedStab, ⟨[("/out/a.mp4", [1])], []⟩, []) ∧
    stabilize_footage (fun _ => ⟨true, [("/out/x", [])]⟩) "/in" "/out"
        ⟨[("/out/a.mp4", [1])], []⟩ ["a.mp4"] =
      (.ok [.skippedStab], ⟨[("/out/a.mp4", [1])], []⟩, [])) :=
  ⟨by decide,
    skip_no_mutation ⟨true, [("/out/x", [])]⟩ ⟨120, 80⟩
      (fun _ => ⟨true, [("/out/x", [])]⟩) "/in" "a.mp4" "/out"
      ⟨[("/out/a.mp4", [1])], []⟩ (by decide)⟩

end DjiTools
